import Mathlib

/-!
Shallow embedding of the scribd page-extraction service, translated from
`src/server.js` (two variants of the server, separated in the file) and
`src/unnamed/part_000` (a third variant).  Pure fragments of the
JavaScript become Lean functions; the awaited browser operations
(navigation, in-page evaluation, the remote cache `fetch`) are modelled by
explicit outcome parameters, since the extraction routines are
deterministic functions of those outcomes.
-/

namespace Scraper

/-- One harvested page marker: the `{page, hash, url}` objects built from
image `src` attributes and script payloads.  In `src/unnamed/part_000` the
markers carry no `url` until assembly, hence the `Option`. -/
structure PageEntry where
  page : Nat
  hash : String
  url : Option String := none
deriving DecidableEq

/-- `allPages.has(p.page)` on the accumulator `Map` (`src/server.js`
line 192), with the JS `Map` kept as its insertion-ordered entry list. -/
def mapHas (acc : List PageEntry) (n : Nat) : Bool :=
  acc.any fun e => e.page == n

/-- `if (!allPages.has(p.page)) allPages.set(p.page, p)` (`src/server.js`
lines 191-195): insert a marker only when its page number is new. -/
def mergeOne (acc : List PageEntry) (p : PageEntry) : List PageEntry :=
  if mapHas acc p.page then acc else acc ++ [p]

/-- `for (const p of pages) { if (!allPages.has(p.page)) ... }`
(`src/server.js` lines 191-195): merge one evidence batch into the
accumulator. -/
def mergeBatch (acc : List PageEntry) (ps : List PageEntry) : List PageEntry :=
  ps.foldl mergeOne acc

/-- The accumulator built by the guarded merges alone, starting from an
empty `Map`.  This is the whole accumulation of the second `src/server.js`
variant (`new Map()` at line 483, guarded loop merges at lines 543-547)
and the scroll-loop phase of the first variant; the first variant
additionally seeds its `Map` with unguarded `set` calls before the loop —
see `accumulate`. -/
def mergeBatches (batches : List (List PageEntry)) : List PageEntry :=
  batches.foldl mergeBatch []

/-- Two markers with distinct page numbers. -/
def pageNe (a b : PageEntry) : Prop := a.page ≠ b.page

/-- The comparator `(a, b) => a.page - b.page` of `src/server.js` line 215,
read as the ordering it sorts by. -/
def pageLe (a b : PageEntry) : Prop := a.page ≤ b.page

/-- Strict version of `pageLe`. -/
def pageLt (a b : PageEntry) : Prop := a.page < b.page

instance : DecidableRel pageLe := fun a b =>
  inferInstanceAs (Decidable (a.page ≤ b.page))

instance : IsTotal PageEntry pageLe := ⟨fun a b => Nat.le_total a.page b.page⟩

instance : IsTrans PageEntry pageLe := ⟨fun _ _ _ => Nat.le_trans⟩

instance : IsAntisymm PageEntry pageLt :=
  ⟨fun a _b h h2 => absurd (Nat.lt_trans h h2) (Nat.lt_irrefl a.page)⟩

/-- `Array.from(allPages.values()).sort((a, b) => a.page - b.page)`
(`src/server.js` line 215): the accumulated markers sorted ascending by
page number. -/
def sortPages (l : List PageEntry) : List PageEntry :=
  l.insertionSort pageLe

/-- The structured extraction result returned to the caller.  The JS
objects omit some fields on some paths (`asset_id`, `title` and
`page_count` are absent from the `catch` result), so those fields are
`Option`s. -/
structure ExtractionResult where
  success : Bool
  doc_id : String
  asset_id : Option String := none
  title : Option String := none
  page_count : Option Nat := none
  pages : List PageEntry := []
  error : Option String := none
deriving DecidableEq

/-- The success return value of `extractPages` in `src/server.js`
(lines 219-232), as a function of the data in scope there:
`page_count: Math.max(info.pageCount, pagesArray.length)` and
`title: info.title || 'Document'` (the JS `||` replaces an empty title). -/
def assembleResult (docId : String) (assetId : Option String)
    (signalCount : Nat) (title : String) (acc : List PageEntry) :
    ExtractionResult :=
  let pagesArray := sortPages acc
  { success := true
    doc_id := docId
    asset_id := assetId
    title := some (if title = "" then "Document" else title)
    page_count := some (max signalCount pagesArray.length)
    pages := pagesArray }

/-- `const maxScrolls = 80` (`src/server.js` line 165; the second variant
uses 100 and `src/unnamed/part_000` runs a fixed 50-iteration loop). -/
def maxScrolls : Nat := 80

/-- The scroll-harvest `while` loop of `src/server.js` (lines 167-200),
with the iterations still to run (`maxScrolls - scrollAttempts`) as the
recursion fuel.  Each cycle evaluates the page for markers
(`observe attempts`, the outcome of the `page.evaluate` at that
iteration), merges them into the accumulator, scrolls, and increments
`scrollAttempts`.  The loop condition is `scrollAttempts < maxScrolls` and
nothing else. -/
def scrollLoopAux (observe : Nat → List PageEntry) (acc : List PageEntry)
    (attempts : Nat) : Nat → List PageEntry × Nat
  | 0 => (acc, attempts)
  | fuel + 1 =>
      scrollLoopAux observe (mergeBatch acc (observe attempts)) (attempts + 1) fuel

/-- The scroll-harvest loop started at `scrollAttempts = 0` on the
accumulator seeded by the pre-loop extraction pass, with the given
iteration budget. -/
def scrollLoop (observe : Nat → List PageEntry) (acc0 : List PageEntry)
    (budget : Nat) : List PageEntry × Nat :=
  scrollLoopAux observe acc0 0 budget

/-- The `pages` array of the assembled result: the accumulator after all
merges, sorted ascending by page number (`src/server.js` lines 214-215). -/
def pagesOf (batches : List (List PageEntry)) : List PageEntry :=
  sortPages (mergeBatches batches)

/-- JS `Map.prototype.set` on a map kept as its insertion-ordered entry
list: an existing key keeps its position and gets the new value — the
later write wins — while a new key is appended.  This is the unguarded
`allPages.set(...)` of the Pattern-1 image pass in `src/server.js`
(lines 105-115) and of the final dedupe in `src/unnamed/part_000`
(line 179). -/
def mapSet (acc : List PageEntry) (p : PageEntry) : List PageEntry :=
  if mapHas acc p.page then
    acc.map fun q => if q.page == p.page then p else q
  else acc ++ [p]

/-- A sequence of unguarded `Map.set` calls starting from `new Map()`:
the Pattern-1 seeding pass of `src/server.js` (lines 102-117) and
`data.pages.forEach(p => allPages.set(...))` of `src/unnamed/part_000`
(lines 177-180). -/
def jsMapOfList (l : List PageEntry) : List PageEntry :=
  l.foldl mapSet []

/-- The full accumulator construction of the first `src/server.js`
variant: the Pattern-1 image pass seeds `allPages` with unguarded
`Map.set` calls (lines 105-115, so a later marker for the same page
number overwrites an earlier one), and the scroll-loop batches are then
merged into it with the `has` guard (lines 191-195). -/
def accumulate (seed : List PageEntry) (batches : List (List PageEntry)) :
    List PageEntry :=
  batches.foldl mergeBatch (jsMapOfList seed)

/-- Data returned by the document-page evaluate of `src/unnamed/part_000`
(lines 54-105): best-effort asset id, recursively found page-count signal,
page markers, and the cleaned title. -/
structure DocData where
  assetId : Option String
  pageCount : Nat
  pages : List PageEntry
  title : String

/-- Data returned by the embed-page evaluate (`src/unnamed/part_000`
lines 129-159). -/
structure EmbedData where
  pages : List PageEntry
  pageCount : Nat

/-- Outcomes of the awaited browser phases of `src/unnamed/part_000`:
either a thrown JS error (navigation timeout, network failure — caught by
the `catch` of `extractPages`) or the scraped data.  `extractPages` is a
deterministic function of these outcomes. -/
structure BrowserEnv where
  docNav : Except String DocData
  embedNav : Except String EmbedData

/-- The merge of embed-page markers into the document-page markers
(`src/unnamed/part_000` lines 162-167): the set of already present page
numbers is computed once, then embed markers with a fresh page number are
appended in order. -/
def mergeEmbed (docPages embedPages : List PageEntry) : List PageEntry :=
  docPages ++ embedPages.filter fun p =>
    !(docPages.map PageEntry.page).contains p.page

/-- `if (embedData.pageCount > data.pageCount) data.pageCount = ...`
(`src/unnamed/part_000` lines 169-171). -/
def updateCount (docCount embedCount : Nat) : Nat :=
  if docCount < embedCount then embedCount else docCount

/-- Final page objects with constructed image urls (`src/unnamed/part_000`
lines 185-191): with an asset id the url is
`https://html.scribdassets.com/<assetId>/images/<page>-<hash>.png`,
without one it is `null`. -/
def buildUrl (assetId : Option String) (p : PageEntry) : PageEntry :=
  { page := p.page, hash := p.hash,
    url := assetId.map fun a =>
      "https://html.scribdassets.com/" ++ a ++ "/images/" ++
        toString p.page ++ "-" ++ p.hash ++ ".png" }

/-- The `catch` return value (`src/unnamed/part_000` lines 204-206 and
`src/server.js` lines 234-241):
`{ success: false, doc_id, error: e.message, pages: [] }` — nothing else. -/
def failureResult (docId msg : String) : ExtractionResult :=
  { success := false, doc_id := docId, error := some msg, pages := [] }

/-- The sort-dedupe-build-urls success assembly of `src/unnamed/part_000`
(lines 176-202), with `page_count: Math.max(data.pageCount, length)` and
`title: data.title || 'Document'`. -/
def assembleP0 (docId : String) (data : DocData) : ExtractionResult :=
  let pagesArray := sortPages (jsMapOfList data.pages)
  let pagesWithUrls := pagesArray.map (buildUrl data.assetId)
  { success := true
    doc_id := docId
    asset_id := data.assetId
    title := some (if data.title = "" then "Document" else data.title)
    page_count := some (max data.pageCount pagesWithUrls.length)
    pages := pagesWithUrls }

/-- The embed-phase update of the document-page data
(`src/unnamed/part_000` lines 160-174). -/
def embedStep (d0 : DocData) (ed : EmbedData) : DocData :=
  { d0 with pages := mergeEmbed d0.pages ed.pages,
            pageCount := updateCount d0.pageCount ed.pageCount }

/-- `extractPages` of `src/unnamed/part_000` (lines 23-210) as a function
of the navigation outcomes.  A thrown error anywhere inside the `try` —
including on the embed fallback — is caught and becomes the failure
result; the embed url is visited only when the document page yielded fewer
than 5 markers and an asset id was found. -/
def extractPages (docId : String) (env : BrowserEnv) : ExtractionResult :=
  match env.docNav with
  | .error e => failureResult docId e
  | .ok d0 =>
      if d0.pages.length < 5 ∧ d0.assetId.isSome then
        match env.embedNav with
        | .error e => failureResult docId e
        | .ok ed => assembleP0 docId (embedStep d0 ed)
      else assembleP0 docId d0

/-- Lower-case an ASCII code point, as the regex `i` flag treats letters. -/
def lowerCode (n : Nat) : Nat :=
  if 65 ≤ n ∧ n ≤ 90 then n + 32 else n

/-- Case-insensitive character comparison (the `i` flag on the patterns of
`extractDocId`). -/
def charEqCI (a b : Char) : Bool :=
  lowerCode a.toNat == lowerCode b.toNat

/-- Regex `\d`: an ASCII decimal digit. -/
def isDigitCh (c : Char) : Bool :=
  decide (48 ≤ c.toNat ∧ c.toNat ≤ 57)

/-- The literal part of a pattern matches case-insensitively at the head
of the input. -/
def litMatchCI : List Char → List Char → Bool
  | [], _ => true
  | _ :: _, [] => false
  | p :: ps, c :: cs => charEqCI p c && litMatchCI ps cs

/-- `url.match(pattern)` for a pattern of the shape `literal(\d+)`: scan
left to right for the first position where the literal matches
case-insensitively and at least one digit follows; return the greedy digit
run, the content of the capture group `match[1]`. -/
def scanPat (pat : List Char) : List Char → Option (List Char)
  | [] => none
  | c :: rest =>
      if litMatchCI pat (c :: rest) then
        if ((c :: rest).drop pat.length).takeWhile isDigitCh = [] then
          scanPat pat rest
        else some (((c :: rest).drop pat.length).takeWhile isDigitCh)
      else scanPat pat rest

/-- The three patterns of `extractDocId` (`src/server.js` lines 13-17,
`src/unnamed/part_000` lines 11-15): `scribd\.com\/document\/(\d+)`,
`scribd\.com\/doc\/(\d+)`, `scribd\.com\/embeds\/(\d+)`, all with the `i`
flag. -/
def docPatterns : List (List Char) :=
  ["scribd.com/document/".toList, "scribd.com/doc/".toList,
    "scribd.com/embeds/".toList]

/-- `for (const pattern of patterns) { const match = url.match(pattern);
if (match) return match[1]; }` -/
def firstScan : List (List Char) → List Char → Option (List Char)
  | [], _ => none
  | p :: ps, s =>
      match scanPat p s with
      | some d => some d
      | none => firstScan ps s

/-- `extractDocId` (`src/server.js` lines 12-24, `src/unnamed/part_000`
lines 10-21): try the three patterns in order, returning the first capture
group, else null. -/
def extractDocId (url : String) : Option String :=
  (firstScan docPatterns url.toList).map fun ds => String.mk ds

/-- A `literal(\d+)` regex match exists at index `i` of `s`: the literal
matches case-insensitively and at least one digit follows. -/
def hitAt (pat s : List Char) (i : Nat) : Prop :=
  litMatchCI pat (s.drop i) = true ∧
    ((s.drop i).drop pat.length).takeWhile isDigitCh ≠ []

instance (pat s : List Char) (i : Nat) : Decidable (hitAt pat s i) :=
  inferInstanceAs (Decidable (litMatchCI pat (s.drop i) = true ∧
    ((s.drop i).drop pat.length).takeWhile isDigitCh ≠ []))

/-- Following the spec's words (section 6): the accepted input shapes
elide the host — `.../document/<digits>`, `.../doc/<digits>`,
`.../embeds/<digits>` after an arbitrary prefix. -/
def specShapePatterns : List (List Char) :=
  ["document/".toList, "doc/".toList, "embeds/".toList]

/-- Bodies the POST `/extract` handler can send (`src/server.js`
lines 278-302): the 400 invalid-url JSON, the 500 catch JSON, or the
extraction result itself. -/
inductive RespBody where
  | invalidUrl
  | serverError (msg : String)
  | json (r : ExtractionResult)
deriving DecidableEq

/-- An HTTP response as status code plus body. -/
structure HttpResp where
  status : Nat
  body : RespBody
deriving DecidableEq

/-- Outcomes of the two awaited calls inside the POST handler's `try`:
`extractPages(docId)` — which rejects when the browser cannot launch,
since `puppeteer.launch` is awaited outside the inner `try` of
`extractPages` — and the cache forwarding `fetch`, which rejects on a
network failure and resolves with an HTTP status code otherwise
(`src/server.js` never inspects that status). -/
structure PostEnv where
  extractOutcome : Except String ExtractionResult
  fetchOutcome : Except String Nat

/-- The POST `/extract` handler of `src/server.js` (lines 278-302).
`url` is `req.body.url`, `none` when the field is absent (JS
`undefined`).  With no `url`, `extractDocId(undefined)` evaluates
`url.match(...)` and throws a `TypeError` before the `try` block is
entered, so the handler sends no response at all: the `.error` outcome.
Inside the `try`, a rejected await jumps to the `catch`, which sends
status 500; otherwise the result is sent as 200 JSON, after a forwarding
`fetch` when `save` is true and the extraction succeeded with at least one
page. -/
def postExtract (url : Option String) (save : Bool) (env : PostEnv) :
    Except String HttpResp :=
  match url with
  | none => .error "TypeError: Cannot read properties of undefined"
  | some u =>
      match extractDocId u with
      | none => .ok ⟨400, .invalidUrl⟩
      | some _docId =>
          match env.extractOutcome with
          | .error e => .ok ⟨500, .serverError e⟩
          | .ok result =>
              if save ∧ result.success = true ∧ result.pages.length > 0 then
                match env.fetchOutcome with
                | .error e => .ok ⟨500, .serverError e⟩
                | .ok _status => .ok ⟨200, .json result⟩
              else .ok ⟨200, .json result⟩

/-- A concrete successful one-page extraction outcome. -/
def okResult : ExtractionResult :=
  ⟨true, "123456", some "abcd1234", some "T", some 1,
    [PageEntry.mk 1 "aa11" (some "u")], none⟩

theorem scrollLoopAux_snd (observe : Nat → List PageEntry) :
    ∀ (fuel : Nat) (acc : List PageEntry) (attempts : Nat),
      (scrollLoopAux observe acc attempts fuel).2 = attempts + fuel := by
  intro fuel
  induction fuel with
  | zero => intro acc attempts; rfl
  | succ n ih =>
      intro acc attempts
      have h := ih (mergeBatch acc (observe attempts)) (attempts + 1)
      simpa [scrollLoopAux, Nat.add_comm, Nat.add_assoc, Nat.add_left_comm]
        using h

theorem mapHas_eq_true_iff (acc : List PageEntry) (n : Nat) :
    mapHas acc n = true ↔ ∃ e ∈ acc, e.page = n := by
  unfold mapHas
  rw [List.any_eq_true]
  constructor
  · rintro ⟨e, he, hb⟩; exact ⟨e, he, by simpa using hb⟩
  · rintro ⟨e, he, hb⟩; exact ⟨e, he, by simpa using hb⟩

theorem mapHas_mergeOne (acc : List PageEntry) (p : PageEntry) (n : Nat) :
    mapHas (mergeOne acc p) n = (mapHas acc n || (p.page == n)) := by
  unfold mergeOne
  by_cases h : mapHas acc p.page = true
  · rw [if_pos h]
    cases hb : (p.page == n) with
    | false => simp
    | true =>
        have hpn : p.page = n := by simpa using hb
        have hn : mapHas acc n = true := hpn ▸ h
        simp [hn]
  · rw [if_neg h]
    unfold mapHas
    rw [List.any_append]
    simp

theorem mapHas_mergeBatch (ps : List PageEntry) :
    ∀ (acc : List PageEntry) (n : Nat),
      mapHas (mergeBatch acc ps) n
        = (mapHas acc n || ps.any fun x => x.page == n) := by
  induction ps with
  | nil => intro acc n; simp [mergeBatch]
  | cons p ps ih =>
      intro acc n
      have h1 : mergeBatch acc (p :: ps) = mergeBatch (mergeOne acc p) ps := rfl
      rw [h1, ih, mapHas_mergeOne]
      simp [Bool.or_assoc]

theorem mem_mergeOne (acc : List PageEntry) (p m : PageEntry)
    (h : m ∈ mergeOne acc p) :
    m ∈ acc ∨ (mapHas acc p.page = false ∧ m = p) := by
  unfold mergeOne at h
  by_cases hh : mapHas acc p.page = true
  · rw [if_pos hh] at h; exact Or.inl h
  · rw [if_neg hh] at h
    rcases List.mem_append.mp h with h1 | h1
    · exact Or.inl h1
    · exact Or.inr ⟨by simpa using hh, by simpa using h1⟩

theorem mem_mergeBatch (ps : List PageEntry) :
    ∀ (acc : List PageEntry) (m : PageEntry), m ∈ mergeBatch acc ps →
      m ∈ acc ∨ (mapHas acc m.page = false ∧
        ps.find? (fun x => x.page == m.page) = some m) := by
  induction ps with
  | nil => intro acc m h; exact Or.inl h
  | cons p ps ih =>
      intro acc m h
      have h1 : mergeBatch acc (p :: ps) = mergeBatch (mergeOne acc p) ps := rfl
      rw [h1] at h
      rcases ih (mergeOne acc p) m h with h2 | ⟨h2, h3⟩
      · rcases mem_mergeOne acc p m h2 with h4 | ⟨h4, h5⟩
        · exact Or.inl h4
        · subst h5
          exact Or.inr ⟨h4, by simp [List.find?]⟩
      · have hacc : mapHas acc m.page = false := by
          rw [mapHas_mergeOne] at h2
          exact (Bool.or_eq_false_iff.mp h2).1
        have hpm : (p.page == m.page) = false := by
          rw [mapHas_mergeOne] at h2
          exact (Bool.or_eq_false_iff.mp h2).2
        refine Or.inr ⟨hacc, ?_⟩
        rw [List.find?_cons, hpm]
        exact h3

theorem pairwise_mergeOne (acc : List PageEntry) (p : PageEntry)
    (h : acc.Pairwise pageNe) : (mergeOne acc p).Pairwise pageNe := by
  unfold mergeOne
  by_cases hh : mapHas acc p.page = true
  · rw [if_pos hh]; exact h
  · rw [if_neg hh]
    rw [List.pairwise_append]
    refine ⟨h, List.pairwise_singleton _ _, ?_⟩
    intro a ha b hb
    have hb1 : b = p := by simpa using hb
    subst hb1
    intro heq
    exact hh ((mapHas_eq_true_iff acc b.page).mpr ⟨a, ha, heq⟩)

theorem pairwise_mergeBatch (ps : List PageEntry) :
    ∀ acc, acc.Pairwise pageNe → (mergeBatch acc ps).Pairwise pageNe := by
  induction ps with
  | nil => intro acc h; exact h
  | cons p ps ih =>
      intro acc h
      exact ih (mergeOne acc p) (pairwise_mergeOne acc p h)

theorem mem_mergeBatch_subset (ps : List PageEntry) (acc : List PageEntry)
    (m : PageEntry) (h : m ∈ mergeBatch acc ps) : m ∈ acc ∨ m ∈ ps := by
  rcases mem_mergeBatch ps acc m h with h1 | ⟨_, h2⟩
  · exact Or.inl h1
  · exact Or.inr (List.mem_of_find?_eq_some h2)

theorem foldl_mergeBatch_eq (batches : List (List PageEntry)) :
    ∀ acc, batches.foldl mergeBatch acc = mergeBatch acc batches.flatten := by
  induction batches with
  | nil => intro acc; rfl
  | cons b bs ih =>
      intro acc
      calc (b :: bs).foldl mergeBatch acc
          = bs.foldl mergeBatch (mergeBatch acc b) := rfl
        _ = mergeBatch (mergeBatch acc b) bs.flatten := ih _
        _ = mergeBatch acc (b ++ bs.flatten) := by
              unfold mergeBatch; rw [List.foldl_append]
        _ = mergeBatch acc (b :: bs).flatten := rfl

theorem mergeBatches_eq_flatten (batches : List (List PageEntry)) :
    mergeBatches batches = mergeBatch [] batches.flatten :=
  foldl_mergeBatch_eq batches []

theorem mapSet_entry_page (p q : PageEntry) :
    (if q.page == p.page then p else q).page = q.page := by
  by_cases h : (q.page == p.page) = true
  · have hq : q.page = p.page := by simpa using h
    rw [if_pos h, hq]
  · rw [if_neg h]

theorem mapHas_map_overwrite (p : PageEntry) (l : List PageEntry) (n : Nat) :
    mapHas (l.map fun q => if q.page == p.page then p else q) n
      = mapHas l n := by
  induction l with
  | nil => rfl
  | cons a l ih =>
      simp only [List.map_cons, mapHas, List.any_cons]
      simp only [mapHas] at ih
      rw [mapSet_entry_page, ih]

theorem mapHas_mapSet (acc : List PageEntry) (p : PageEntry) (n : Nat) :
    mapHas (mapSet acc p) n = (mapHas acc n || (p.page == n)) := by
  unfold mapSet
  by_cases h : mapHas acc p.page = true
  · rw [if_pos h, mapHas_map_overwrite]
    cases hb : (p.page == n) with
    | false => simp
    | true =>
        have hpn : p.page = n := by simpa using hb
        have hn : mapHas acc n = true := hpn ▸ h
        simp [hn]
  · rw [if_neg h]
    unfold mapHas
    rw [List.any_append]
    simp

theorem pairwise_mapSet (acc : List PageEntry) (p : PageEntry)
    (h : acc.Pairwise pageNe) : (mapSet acc p).Pairwise pageNe := by
  unfold mapSet
  by_cases hh : mapHas acc p.page = true
  · rw [if_pos hh]
    rw [List.pairwise_map]
    refine h.imp ?_
    intro a b hab
    show (if a.page == p.page then p else a).page
      ≠ (if b.page == p.page then p else b).page
    rw [mapSet_entry_page, mapSet_entry_page]
    exact hab
  · rw [if_neg hh]
    rw [List.pairwise_append]
    refine ⟨h, List.pairwise_singleton _ _, ?_⟩
    intro a ha b hb
    have hb1 : b = p := by simpa using hb
    subst hb1
    intro heq
    exact hh ((mapHas_eq_true_iff acc b.page).mpr ⟨a, ha, heq⟩)

theorem foldl_mapSet_pairwise (l : List PageEntry) :
    ∀ acc, acc.Pairwise pageNe → (l.foldl mapSet acc).Pairwise pageNe := by
  induction l with
  | nil => intro acc h; exact h
  | cons p l ih =>
      intro acc h
      exact ih (mapSet acc p) (pairwise_mapSet acc p h)

theorem pairwise_jsMapOfList (l : List PageEntry) :
    (jsMapOfList l).Pairwise pageNe :=
  foldl_mapSet_pairwise l [] List.Pairwise.nil

theorem pairwise_accumulate (seed : List PageEntry)
    (batches : List (List PageEntry)) :
    (accumulate seed batches).Pairwise pageNe := by
  unfold accumulate
  rw [foldl_mergeBatch_eq]
  exact pairwise_mergeBatch _ _ (pairwise_jsMapOfList seed)

theorem mem_foldl_mapSet (l : List PageEntry) :
    ∀ (acc : List PageEntry) (m : PageEntry), m ∈ l.foldl mapSet acc →
      l.reverse.find? (fun x => x.page == m.page) = some m ∨
        (m ∈ acc ∧
          l.reverse.find? (fun x => x.page == m.page) = none) := by
  induction l with
  | nil => intro acc m h; exact Or.inr ⟨h, rfl⟩
  | cons p l ih =>
      intro acc m h
      have h1 : (p :: l).foldl mapSet acc = l.foldl mapSet (mapSet acc p) := rfl
      rw [h1] at h
      rcases ih (mapSet acc p) m h with h2 | ⟨h2, h3⟩
      · left
        rw [List.reverse_cons, List.find?_append, h2]
        rfl
      · unfold mapSet at h2
        by_cases hh : mapHas acc p.page = true
        · rw [if_pos hh] at h2
          rcases List.mem_map.mp h2 with ⟨q, hq, hfq⟩
          by_cases hqp : (q.page == p.page) = true
          · rw [if_pos hqp] at hfq
            subst hfq
            left
            rw [List.reverse_cons, List.find?_append, h3]
            simp [List.find?]
          · rw [if_neg hqp] at hfq
            subst hfq
            right
            have hne : q.page ≠ p.page := by simpa using hqp
            have hpq : (p.page == q.page) = false := by
              cases hx : (p.page == q.page) with
              | false => rfl
              | true =>
                  have hx2 : p.page = q.page := by simpa using hx
                  exact (hne hx2.symm).elim
            refine ⟨hq, ?_⟩
            rw [List.reverse_cons, List.find?_append, h3]
            simp [List.find?, hpq]
        · rw [if_neg hh] at h2
          rcases List.mem_append.mp h2 with h4 | h4
          · right
            have hpm : (p.page == m.page) = false := by
              cases hx : (p.page == m.page) with
              | false => rfl
              | true =>
                  have hx2 : p.page = m.page := by simpa using hx
                  exact (hh ((mapHas_eq_true_iff acc p.page).mpr
                    ⟨m, h4, hx2.symm⟩)).elim
            refine ⟨h4, ?_⟩
            rw [List.reverse_cons, List.find?_append, h3]
            simp [List.find?, hpm]
          · have h5 : m = p := by simpa using h4
            subst h5
            left
            rw [List.reverse_cons, List.find?_append, h3]
            simp [List.find?]

theorem mem_jsMapOfList_last (l : List PageEntry) (m : PageEntry)
    (hm : m ∈ jsMapOfList l) :
    l.reverse.find? (fun x => x.page == m.page) = some m := by
  rcases mem_foldl_mapSet l [] m hm with h | ⟨h, _⟩
  · exact h
  · exact absurd h (List.not_mem_nil m)

theorem sortPages_perm (l : List PageEntry) : (sortPages l).Perm l :=
  List.perm_insertionSort pageLe l

theorem sortPages_sorted (l : List PageEntry) :
    List.Sorted pageLe (sortPages l) :=
  List.sorted_insertionSort pageLe l

theorem pageNe_symm : ∀ {a b : PageEntry}, pageNe a b → pageNe b a :=
  fun h => Ne.symm h

theorem pairwise_merged (batches : List (List PageEntry)) :
    (mergeBatches batches).Pairwise pageNe := by
  rw [mergeBatches_eq_flatten]
  exact pairwise_mergeBatch _ [] List.Pairwise.nil

theorem pagesOf_pairwise_lt (batches : List (List PageEntry)) :
    (pagesOf batches).Pairwise pageLt := by
  have hne : (pagesOf batches).Pairwise pageNe :=
    (List.Perm.pairwise_iff pageNe_symm (sortPages_perm _)).mpr
      (pairwise_merged batches)
  have hle : (pagesOf batches).Pairwise pageLe := sortPages_sorted _
  exact (hle.and hne).imp (fun h => Nat.lt_of_le_of_ne h.1 h.2)

theorem mem_merged_iff (l : List PageEntry)
    (hfun : ∀ a ∈ l, ∀ b ∈ l, a.page = b.page → a = b) (m : PageEntry) :
    m ∈ mergeBatch [] l ↔ m ∈ l := by
  constructor
  · intro h
    rcases mem_mergeBatch_subset l [] m h with h1 | h1
    · exact absurd h1 (List.not_mem_nil m)
    · exact h1
  · intro h
    have hany : l.any (fun x => x.page == m.page) = true :=
      List.any_eq_true.mpr ⟨m, h, by simp⟩
    have h1 : mapHas (mergeBatch [] l) m.page = true := by
      rw [mapHas_mergeBatch]
      simp [hany, mapHas]
    rcases (mapHas_eq_true_iff _ _).mp h1 with ⟨r, hr, hrp⟩
    have hrl : r ∈ l := by
      rcases mem_mergeBatch_subset l [] r hr with h2 | h2
      · exact absurd h2 (List.not_mem_nil r)
      · exact h2
    have hrm : r = m := hfun r hrl m h hrp
    exact hrm ▸ hr

theorem assembleP0_success (docId : String) (data : DocData) :
    (assembleP0 docId data).success = true := rfl

theorem failureResult_success (docId msg : String) :
    (failureResult docId msg).success = false := rfl

theorem litMatchCI_nil (pat : List Char) (hp : pat ≠ []) :
    litMatchCI pat [] = false := by
  cases pat with
  | nil => exact absurd rfl hp
  | cons p ps => rfl

theorem hitAt_nil (pat : List Char) (hp : pat ≠ []) (i : Nat) :
    ¬ hitAt pat [] i := by
  intro h
  rcases h with ⟨h1, _⟩
  rw [List.drop_nil, litMatchCI_nil pat hp] at h1
  exact Bool.noConfusion h1

theorem scanPat_none_iff (pat : List Char) (hp : pat ≠ []) :
    ∀ s : List Char, scanPat pat s = none ↔ ∀ i, ¬ hitAt pat s i := by
  intro s
  induction s with
  | nil =>
      constructor
      · intro _ i; exact hitAt_nil pat hp i
      · intro _; rfl
  | cons c rest ih =>
      constructor
      · intro h i
        by_cases hm : litMatchCI pat (c :: rest) = true
        · by_cases hd : ((c :: rest).drop pat.length).takeWhile isDigitCh = []
          · have h2 : scanPat pat rest = none := by
              rw [scanPat, if_pos hm, if_pos hd] at h
              exact h
            cases i with
            | zero => intro hh; exact hh.2 hd
            | succ j => exact (ih.mp h2) j
          · exfalso
            rw [scanPat, if_pos hm, if_neg hd] at h
            exact Option.noConfusion h
        · have h2 : scanPat pat rest = none := by
            rw [scanPat, if_neg hm] at h
            exact h
          cases i with
          | zero => intro hh; exact hm hh.1
          | succ j => exact (ih.mp h2) j
      · intro hall
        rw [scanPat]
        by_cases hm : litMatchCI pat (c :: rest) = true
        · rw [if_pos hm]
          by_cases hd : ((c :: rest).drop pat.length).takeWhile isDigitCh = []
          · rw [if_pos hd]
            exact ih.mpr (fun j => hall (j + 1))
          · exact absurd ⟨hm, hd⟩ (hall 0)
        · rw [if_neg hm]
          exact ih.mpr (fun j => hall (j + 1))

theorem scanPat_some (pat : List Char) :
    ∀ s d : List Char, scanPat pat s = some d →
      ∃ i, hitAt pat s i ∧
        d = ((s.drop i).drop pat.length).takeWhile isDigitCh := by
  intro s
  induction s with
  | nil => intro d h; exact Option.noConfusion h
  | cons c rest ih =>
      intro d h
      by_cases hm : litMatchCI pat (c :: rest) = true
      · by_cases hd : ((c :: rest).drop pat.length).takeWhile isDigitCh = []
        · rw [scanPat, if_pos hm, if_pos hd] at h
          obtain ⟨j, hj, hjd⟩ := ih d h
          exact ⟨j + 1, hj, hjd⟩
        · rw [scanPat, if_pos hm, if_neg hd] at h
          exact ⟨0, ⟨hm, hd⟩, (Option.some.inj h).symm⟩
      · rw [scanPat, if_neg hm] at h
        obtain ⟨j, hj, hjd⟩ := ih d h
        exact ⟨j + 1, hj, hjd⟩

theorem docPatterns_ne_nil : ∀ p ∈ docPatterns, p ≠ [] := by decide

theorem firstScan_none_iff (ps : List (List Char)) (s : List Char) :
    firstScan ps s = none ↔ ∀ p ∈ ps, scanPat p s = none := by
  induction ps with
  | nil => simp [firstScan]
  | cons q qs ih =>
      constructor
      · intro h p hp
        cases hq : scanPat q s with
        | none =>
            rw [firstScan, hq] at h
            rcases List.mem_cons.mp hp with h1 | h1
            · exact h1 ▸ hq
            · exact (ih.mp h) p h1
        | some d =>
            rw [firstScan, hq] at h
            exact Option.noConfusion h
      · intro hall
        have hq : scanPat q s = none := hall q (List.mem_cons_self q qs)
        rw [firstScan, hq]
        exact ih.mpr (fun p hp => hall p (List.mem_cons_of_mem q hp))

theorem firstScan_some (ps : List (List Char)) (s : List Char) :
    ∀ d, firstScan ps s = some d → ∃ p ∈ ps, scanPat p s = some d := by
  induction ps with
  | nil => intro d h; exact Option.noConfusion h
  | cons q qs ih =>
      intro d h
      cases hq : scanPat q s with
      | none =>
          rw [firstScan, hq] at h
          obtain ⟨p, hp, hps⟩ := ih d h
          exact ⟨p, List.mem_cons_of_mem q hp, hps⟩
      | some d2 =>
          rw [firstScan, hq] at h
          exact ⟨q, List.mem_cons_self q qs, hq.trans h⟩

theorem extractDocId_eq_none_iff (s : String) :
    extractDocId s = none ↔
      ∀ p ∈ docPatterns, ∀ i, ¬ hitAt p s.toList i := by
  constructor
  · intro h p hp i
    have hfs : firstScan docPatterns s.toList = none := by
      unfold extractDocId at h
      cases hq : firstScan docPatterns s.toList with
      | none => rfl
      | some d => rw [hq] at h; exact Option.noConfusion h
    exact (scanPat_none_iff p (docPatterns_ne_nil p hp) s.toList).mp
      ((firstScan_none_iff docPatterns s.toList).mp hfs p hp) i
  · intro hall
    have hfs : firstScan docPatterns s.toList = none :=
      (firstScan_none_iff docPatterns s.toList).mpr
        (fun p hp =>
          (scanPat_none_iff p (docPatterns_ne_nil p hp) s.toList).mpr
            (hall p hp))
    unfold extractDocId
    rw [hfs]
    rfl

theorem extractDocId_some_characterized (s d : String)
    (h : extractDocId s = some d) :
    ∃ p ∈ docPatterns, ∃ i, hitAt p s.toList i ∧
      d = String.mk (((s.toList.drop i).drop p.length).takeWhile isDigitCh) := by
  unfold extractDocId at h
  cases hq : firstScan docPatterns s.toList with
  | none => rw [hq] at h; exact Option.noConfusion h
  | some ds =>
      rw [hq] at h
      have hd : d = String.mk ds := (Option.some.inj h).symm
      obtain ⟨p, hp, hps⟩ := firstScan_some docPatterns s.toList ds hq
      obtain ⟨i, hi, hid⟩ := scanPat_some p s.toList ds hps
      exact ⟨p, hp, i, hi, by rw [hd, hid]⟩

/-- C1 (amended): the harvest scroll loop never stops early on the
detected total-page target; for every sequence of per-iteration
observations and every starting accumulator it runs its full fixed
iteration budget (`maxScrolls = 80` in `src/server.js`; the second variant
uses 100 and `src/unnamed/part_000` a fixed 50), and that budget lies
between 50 and 150.  When no target is known the behaviour is the same:
the full budget. -/
theorem scroll_loop_runs_full_budget (observe : Nat → List PageEntry)
    (acc0 : List PageEntry) :
    (scrollLoop observe acc0 maxScrolls).2 = maxScrolls ∧
      50 ≤ maxScrolls ∧ maxScrolls ≤ 150 := by
  refine ⟨?_, by decide, by decide⟩
  simpa [scrollLoop] using scrollLoopAux_snd observe maxScrolls acc0 0

/-- C1 counterexample: a run whose very first evidence pass already
reaches a detected total-page target of 1 distinct page, yet the scroll
loop still performs all 80 cycles instead of stopping once the target is
met. -/
theorem scroll_loop_ignores_target :
    (mergeBatch [] [PageEntry.mk 1 "aa" none]).length = 1 ∧
      (scrollLoop (fun _ => [PageEntry.mk 1 "aa" none]) [] maxScrolls).2
          = maxScrolls ∧
      maxScrolls ≠ 1 := by
  decide

/-- C2: the assembled result reports
`page_count = max(detected total-page signal, number of pages found)`
(`src/server.js` line 224), so `page_count` is never below `pages.length`;
and every success result of the unnamed variant likewise carries a
`page_count` at least as large as its `pages` sequence. -/
theorem page_count_is_max :
    (∀ (docId : String) (assetId : Option String) (signal : Nat)
        (title : String) (batches : List (List PageEntry)),
      (assembleResult docId assetId signal title
            (mergeBatches batches)).page_count
          = some (max signal (assembleResult docId assetId signal title
              (mergeBatches batches)).pages.length) ∧
        (assembleResult docId assetId signal title
            (mergeBatches batches)).pages.length
          ≤ max signal (assembleResult docId assetId signal title
              (mergeBatches batches)).pages.length) ∧
      ∀ (docId : String) (env : BrowserEnv),
        (extractPages docId env).success = true →
        ∃ n, (extractPages docId env).page_count = some n ∧
          (extractPages docId env).pages.length ≤ n := by
  constructor
  · intro docId assetId signal title batches
    exact ⟨rfl, Nat.le_max_right _ _⟩
  · intro docId env hs
    unfold extractPages at hs ⊢
    cases hdoc : env.docNav with
    | error e =>
        rw [hdoc] at hs
        have hs2 : (failureResult docId e).success = true := hs
        rw [failureResult_success] at hs2
        exact Bool.noConfusion hs2
    | ok d0 =>
        rw [hdoc] at hs
        dsimp only at hs ⊢
        by_cases hc : d0.pages.length < 5 ∧ d0.assetId.isSome = true
        · rw [if_pos hc] at hs ⊢
          cases hemb : env.embedNav with
          | error e =>
              rw [hemb] at hs
              have hs2 : (failureResult docId e).success = true := hs
              rw [failureResult_success] at hs2
              exact Bool.noConfusion hs2
          | ok ed =>
              exact ⟨_, rfl, Nat.le_max_right _ _⟩
        · rw [if_neg hc]
          exact ⟨_, rfl, Nat.le_max_right _ _⟩

/-- C2 witness: a concrete success extraction whose `page_count` bounds
its pages length. -/
theorem page_count_is_max_witness :
    ∃ n, (extractPages "5"
        ⟨Except.ok ⟨some "as", 9,
            [PageEntry.mk 1 "aa" none, PageEntry.mk 2 "bb" none], "T"⟩,
          Except.ok ⟨[PageEntry.mk 3 "cc" none], 3⟩⟩).page_count = some n ∧
      (extractPages "5"
        ⟨Except.ok ⟨some "as", 9,
            [PageEntry.mk 1 "aa" none, PageEntry.mk 2 "bb" none], "T"⟩,
          Except.ok ⟨[PageEntry.mk 3 "cc" none], 3⟩⟩).pages.length ≤ n :=
  page_count_is_max.2 "5" _ (by decide)

/-- C3 counterexample: the unguarded Pattern-1 seed pass
(`src/server.js` lines 105-115) reports page 1 twice with different
hashes; the accumulator then holds the LAST marker for page 1, although
the first one discovered carried hash `aa` — so the marker kept is not
the first one discovered. -/
theorem seed_pass_last_writer_wins :
    accumulate [PageEntry.mk 1 "aa" none, PageEntry.mk 1 "bb" none] []
        = [PageEntry.mk 1 "bb" none] ∧
      [PageEntry.mk 1 "aa" none, PageEntry.mk 1 "bb" none].find?
          (fun x => x.page == 1) = some (PageEntry.mk 1 "aa" none) ∧
      PageEntry.mk 1 "bb" none ≠ PageEntry.mk 1 "aa" none := by
  decide

/-- C3 (amended): after any sequence of merge steps the accumulator holds
at most one marker per page number.  The guarded merges
(`src/server.js` lines 191-195) ignore later discoveries of a page number
already present: every accumulated marker either survives unchanged from
the seeded map, or — for a page number absent from the seed — is the
first marker with that page number among the scroll batches.  Within the
unguarded Pattern-1 seed pass itself (`src/server.js` lines 105-115),
however, the LAST write for a page number wins, not the first. -/
theorem accumulator_one_marker_per_page (seed : List PageEntry)
    (batches : List (List PageEntry)) :
    (accumulate seed batches).Pairwise pageNe ∧
      (∀ m, m ∈ accumulate seed batches →
        m ∈ jsMapOfList seed ∨
          (mapHas (jsMapOfList seed) m.page = false ∧
            batches.flatten.find? (fun x => x.page == m.page) = some m)) ∧
      ∀ m, m ∈ jsMapOfList seed →
        seed.reverse.find? (fun x => x.page == m.page) = some m := by
  refine ⟨pairwise_accumulate seed batches, ?_, ?_⟩
  · intro m hm
    unfold accumulate at hm
    rw [foldl_mergeBatch_eq] at hm
    exact mem_mergeBatch _ _ m hm
  · intro m hm
    exact mem_jsMapOfList_last seed m hm

/-- C3 witness: with seed marker (1, aa) and a later scroll discovery
(1, bb), the accumulator stays duplicate-free, the guarded phase keeps
the seeded marker, and the seed lookup locates it as the last seed
write. -/
theorem accumulator_one_marker_per_page_witness :
    (accumulate [PageEntry.mk 1 "aa" none]
        [[PageEntry.mk 1 "bb" none]]).Pairwise pageNe ∧
      (PageEntry.mk 1 "aa" none ∈ jsMapOfList [PageEntry.mk 1 "aa" none] ∨
        (mapHas (jsMapOfList [PageEntry.mk 1 "aa" none])
            (PageEntry.mk 1 "aa" none).page = false ∧
          ([[PageEntry.mk 1 "bb" none]] : List (List PageEntry)).flatten.find?
              (fun x => x.page == (PageEntry.mk 1 "aa" none).page)
            = some (PageEntry.mk 1 "aa" none))) ∧
      [PageEntry.mk 1 "aa" none].reverse.find?
          (fun x => x.page == (PageEntry.mk 1 "aa" none).page)
        = some (PageEntry.mk 1 "aa" none) :=
  ⟨(accumulator_one_marker_per_page [PageEntry.mk 1 "aa" none]
      [[PageEntry.mk 1 "bb" none]]).1,
   (accumulator_one_marker_per_page [PageEntry.mk 1 "aa" none]
      [[PageEntry.mk 1 "bb" none]]).2.1 (PageEntry.mk 1 "aa" none)
     (by decide),
   (accumulator_one_marker_per_page [PageEntry.mk 1 "aa" none]
      [[PageEntry.mk 1 "bb" none]]).2.2 (PageEntry.mk 1 "aa" none)
     (by decide)⟩

/-- C4 (amended): for any discovery order, the assembled pages sequence is
strictly ascending by page number with no duplicate page numbers; and the
assembled output is invariant under reordering of discovery provided each
page number is reported with a single marker (stable hash per page) — the
assumption under which the source keeps only the first-seen hash. -/
theorem assembled_sorted_stable (batches : List (List PageEntry)) :
    (pagesOf batches).Pairwise pageLt ∧
      ∀ batches' : List (List PageEntry),
        batches.flatten.Perm batches'.flatten →
        (∀ a ∈ batches.flatten, ∀ b ∈ batches.flatten,
          a.page = b.page → a = b) →
        pagesOf batches = pagesOf batches' := by
  constructor
  · exact pagesOf_pairwise_lt batches
  · intro batches' hperm hfun
    have hfun' : ∀ a ∈ batches'.flatten, ∀ b ∈ batches'.flatten,
        a.page = b.page → a = b := by
      intro a ha b hb
      exact hfun a (hperm.mem_iff.mpr ha) b (hperm.mem_iff.mpr hb)
    have hmem : ∀ m, m ∈ mergeBatches batches ↔ m ∈ mergeBatches batches' := by
      intro m
      rw [mergeBatches_eq_flatten, mergeBatches_eq_flatten,
        mem_merged_iff _ hfun, mem_merged_iff _ hfun']
      exact hperm.mem_iff
    have hnd1 : (mergeBatches batches).Nodup :=
      (pairwise_merged batches).imp
        (fun h heq => h (congrArg PageEntry.page heq))
    have hnd2 : (mergeBatches batches').Nodup :=
      (pairwise_merged batches').imp
        (fun h heq => h (congrArg PageEntry.page heq))
    have hpermAcc : (mergeBatches batches).Perm (mergeBatches batches') :=
      (List.perm_ext_iff_of_nodup hnd1 hnd2).mpr hmem
    have hperm2 : (pagesOf batches).Perm (pagesOf batches') :=
      ((sortPages_perm _).trans hpermAcc).trans (sortPages_perm _).symm
    exact List.eq_of_perm_of_sorted hperm2 (pagesOf_pairwise_lt batches)
      (pagesOf_pairwise_lt batches')

/-- C4 counterexample: the same two markers discovered in two different
orders assemble to different pages sequences — the first-seen rule keeps a
different hash for page 1 — so the assembled output as a whole is not
invariant under reordering of discovery. -/
theorem assembly_not_order_invariant :
    [PageEntry.mk 1 "aa" none, PageEntry.mk 1 "bb" none].Perm
        [PageEntry.mk 1 "bb" none, PageEntry.mk 1 "aa" none] ∧
      pagesOf [[PageEntry.mk 1 "aa" none, PageEntry.mk 1 "bb" none]] ≠
        pagesOf [[PageEntry.mk 1 "bb" none, PageEntry.mk 1 "aa" none]] := by
  decide

/-- C4 witness: markers for pages 2 and 1, discovered in two different
orders and groupings, assemble to the same strictly ascending sequence. -/
theorem assembled_sorted_stable_witness :
    (pagesOf [[PageEntry.mk 2 "bb" none], [PageEntry.mk 1 "aa" none]]).Pairwise
        pageLt ∧
      pagesOf [[PageEntry.mk 2 "bb" none], [PageEntry.mk 1 "aa" none]] =
        pagesOf [[PageEntry.mk 1 "aa" none, PageEntry.mk 2 "bb" none]] :=
  ⟨(assembled_sorted_stable
      [[PageEntry.mk 2 "bb" none], [PageEntry.mk 1 "aa" none]]).1,
   (assembled_sorted_stable
      [[PageEntry.mk 2 "bb" none], [PageEntry.mk 1 "aa" none]]).2
     [[PageEntry.mk 1 "aa" none, PageEntry.mk 2 "bb" none]]
     (by decide) (by decide)⟩

/-- C5 (amended): `extractDocId` requires the host literal `scribd.com/`
before `document/`, `doc/` or `embeds/`.  On the in-scope host it extracts
the digits — `https://www.scribd.com/document/123456/My-Title` yields
`123456` — while the spec's host-agnostic end-to-end input
`https://example.com/document/123456/My-Title` yields none.  In general it
returns none exactly when no pattern matches anywhere in the string
(case-insensitive literal followed by at least one digit), and whenever it
returns a doc id, that id is the greedy digit run captured right after a
matched pattern literal. -/
theorem extractDocId_characterization :
    extractDocId "https://www.scribd.com/document/123456/My-Title"
        = some "123456" ∧
      extractDocId "https://example.com/document/123456/My-Title" = none ∧
      (∀ s : String, extractDocId s = none ↔
        ∀ p ∈ docPatterns, ∀ i, ¬ hitAt p s.toList i) ∧
      ∀ s d, extractDocId s = some d →
        ∃ p ∈ docPatterns, ∃ i, hitAt p s.toList i ∧
          d = String.mk
            (((s.toList.drop i).drop p.length).takeWhile isDigitCh) := by
  refine ⟨by decide, by decide, extractDocId_eq_none_iff, ?_⟩
  intro s d h
  exact extractDocId_some_characterized s d h

/-- C5 witness: the positive characterization applied at a concrete
matching input. -/
theorem extractDocId_characterization_witness :
    ∃ p ∈ docPatterns, ∃ i, hitAt p "scribd.com/doc/77".toList i ∧
      "77" = String.mk
        ((("scribd.com/doc/77".toList.drop i).drop p.length).takeWhile
          isDigitCh) :=
  extractDocId_characterization.2.2.2 "scribd.com/doc/77" "77" (by decide)

/-- C5 counterexample: the end-to-end input of the spec matches the
spec's accepted shape `.../document/<digits>` (at index 20, right after
the host prefix `https://example.com/`), yet `extractDocId` returns none,
because the code patterns additionally require the literal
`scribd.com/`. -/
theorem extractDocId_spec_shape_rejected :
    hitAt ("document/".toList)
        "https://example.com/document/123456/My-Title".toList 20 ∧
      ("document/".toList) ∈ specShapePatterns ∧
      extractDocId "https://example.com/document/123456/My-Title" = none := by
  exact ⟨by decide, by decide, by decide⟩

/-- C6: with zero discovered markers and a failed asset-identifier lookup,
the assembled result still has `success: true`, `asset_id` null, an empty
`pages` array, and `page_count` equal to the detected total-page signal
(which the source parses as 0 when no signal was found); the harvesting
and assembly stages are total functions of their inputs and raise
nothing. -/
theorem empty_harvest_is_success (docId : String) (signal : Nat)
    (title : String) :
    (assembleResult docId none signal title (mergeBatches [])).success
        = true ∧
      (assembleResult docId none signal title (mergeBatches [])).asset_id
        = none ∧
      (assembleResult docId none signal title (mergeBatches [])).pages
        = [] ∧
      (assembleResult docId none signal title (mergeBatches [])).page_count
        = some signal := by
  refine ⟨rfl, rfl, rfl, ?_⟩
  show some (max signal 0) = some signal
  rw [Nat.max_zero]

/-- C7 counterexample: the first candidate navigation times out while the
embed fallback data would have been available, yet the extraction fails
overall instead of proceeding with the fallback candidate. -/
theorem first_nav_failure_no_fallback :
    extractPages "123456"
        ⟨Except.error "Navigation timeout of 45000 ms exceeded",
          Except.ok ⟨[PageEntry.mk 1 "aa" none], 1⟩⟩
      = failureResult "123456" "Navigation timeout of 45000 ms exceeded" ∧
      (extractPages "123456"
        ⟨Except.error "Navigation timeout of 45000 ms exceeded",
          Except.ok ⟨[PageEntry.mk 1 "aa" none], 1⟩⟩).success = false :=
  ⟨rfl, rfl⟩

/-- C7 (amended): a navigation timeout or network failure on the first
candidate URL is not followed by a fallback candidate — the whole
extraction fails with `success: false`.  The embed candidate is visited
only after the first navigation has succeeded with fewer than 5 markers
and a known asset id, and when that embed pass succeeds the result is a
normal success. -/
theorem nav_failure_behavior (docId : String) (env : BrowserEnv) :
    (∀ e, env.docNav = Except.error e →
        extractPages docId env = failureResult docId e) ∧
      (∀ d0 ed, env.docNav = Except.ok d0 → d0.pages.length < 5 →
        d0.assetId.isSome = true → env.embedNav = Except.ok ed →
        (extractPages docId env).success = true) := by
  constructor
  · intro e he
    unfold extractPages
    rw [he]
  · intro d0 ed hd hlen hasset hemb
    unfold extractPages
    rw [hd]
    dsimp only
    rw [if_pos ⟨hlen, hasset⟩, hemb]
    exact assembleP0_success docId (embedStep d0 ed)

/-- C7 witness: both branches at concrete environments. -/
theorem nav_failure_behavior_witness :
    extractPages "1" ⟨Except.error "timeout", Except.error "unused"⟩
        = failureResult "1" "timeout" ∧
      (extractPages "2"
        ⟨Except.ok ⟨some "as", 3, [PageEntry.mk 1 "aa" none], "T"⟩,
          Except.ok ⟨[PageEntry.mk 2 "bb" none], 3⟩⟩).success = true :=
  ⟨(nav_failure_behavior "1" _).1 "timeout" rfl,
   (nav_failure_behavior "2" _).2 _ _ rfl (by decide) rfl rfl⟩

/-- C8 counterexample: with `save: true` and a successful one-page result,
a rejected forwarding `fetch` is caught by the handler's `catch`, which
answers 500 — not the 200 JSON result — while the same request with the
forwarding call resolving (even with HTTP status 500 from the cache)
answers 200 with the result: forwarding failure is not swallowed. -/
theorem forwarding_rejection_not_swallowed :
    postExtract (some "https://www.scribd.com/document/123456") true
        ⟨Except.ok okResult, Except.error "FetchError: network failure"⟩
      = Except.ok ⟨500, RespBody.serverError "FetchError: network failure"⟩ ∧
      postExtract (some "https://www.scribd.com/document/123456") true
        ⟨Except.ok okResult, Except.ok 500⟩
      = Except.ok ⟨200, RespBody.json okResult⟩ :=
  ⟨rfl, rfl⟩

/-- C8 (amended): when the forwarding call resolves — with any HTTP
status; the handler never inspects it — the caller receives the 200 JSON
ExtractionResult; only a rejected forwarding call (a network failure) is
caught by the handler's `catch` and turns the response into a 500.  With
`save` false, or a failed or empty extraction, no forwarding occurs and
the 200 result is returned directly. -/
theorem forwarding_resolved_swallowed (u docId : String) (save : Bool)
    (env : PostEnv) (result : ExtractionResult) (st : Nat)
    (hd : extractDocId u = some docId)
    (he : env.extractOutcome = Except.ok result)
    (hf : env.fetchOutcome = Except.ok st) :
    postExtract (some u) save env
      = Except.ok ⟨200, RespBody.json result⟩ := by
  unfold postExtract
  dsimp only
  rw [hd]
  dsimp only
  rw [he]
  dsimp only
  by_cases hc : save = true ∧ result.success = true ∧ result.pages.length > 0
  · rw [if_pos hc, hf]
  · rw [if_neg hc]

/-- C8 witness: a resolved forwarding call at a concrete request yields
the 200 result. -/
theorem forwarding_resolved_swallowed_witness :
    postExtract (some "https://www.scribd.com/document/123456") true
        ⟨Except.ok okResult, Except.ok 204⟩
      = Except.ok ⟨200, RespBody.json okResult⟩ :=
  forwarding_resolved_swallowed "https://www.scribd.com/document/123456"
    "123456" true _ okResult 204 (by decide) rfl rfl

/-- C9 counterexample: the document page already yielded a marker, an
asset id and a title, then the embed navigation fails; the failure result
discards all of it — empty pages, no asset id, no title — keeping only the
doc id and the error message. -/
theorem failure_discards_partial_data :
    extractPages "99"
        ⟨Except.ok ⟨some "as1", 10, [PageEntry.mk 1 "aa" none], "T"⟩,
          Except.error "net::ERR_CONNECTION_RESET"⟩
      = ⟨false, "99", none, none, none, [],
          some "net::ERR_CONNECTION_RESET"⟩ := by
  decide

/-- C9 (amended): every extraction result with `success: false` is
exactly the `catch` result: doc id, error message, and an empty pages
list; the partially accumulated markers, asset id and title are discarded
rather than returned. -/
theorem failure_result_shape (docId : String) (env : BrowserEnv)
    (hs : (extractPages docId env).success = false) :
    ∃ e, extractPages docId env = failureResult docId e := by
  unfold extractPages at hs ⊢
  cases hdoc : env.docNav with
  | error e => exact ⟨e, rfl⟩
  | ok d0 =>
      rw [hdoc] at hs
      dsimp only at hs ⊢
      by_cases hc : d0.pages.length < 5 ∧ d0.assetId.isSome = true
      · rw [if_pos hc] at hs ⊢
        cases hemb : env.embedNav with
        | error e => exact ⟨e, rfl⟩
        | ok ed =>
            rw [hemb] at hs
            have hs2 : (assembleP0 docId (embedStep d0 ed)).success = false := hs
            rw [assembleP0_success] at hs2
            exact Bool.noConfusion hs2
      · rw [if_neg hc] at hs
        have hs2 : (assembleP0 docId d0).success = false := hs
        rw [assembleP0_success] at hs2
        exact Bool.noConfusion hs2

/-- C9 witness: a concrete failed extraction has the bare failure shape. -/
theorem failure_result_shape_witness :
    ∃ e, extractPages "7" ⟨Except.error "boom", Except.error "b2"⟩
        = failureResult "7" e :=
  failure_result_shape "7" _ rfl

/-- C10: a POST body without a `url` field makes `extractDocId(undefined)`
throw a `TypeError` before the `try` block is entered, so the handler
produces no HTTP response at all: neither the 400 invalid-url reply nor
the 500 catch reply — the rejection escapes the handler. -/
theorem missing_url_unanswered (save : Bool) (env : PostEnv) :
    postExtract none save env
        = Except.error "TypeError: Cannot read properties of undefined" ∧
      (postExtract none save env).isOk = false :=
  ⟨rfl, rfl⟩

end Scraper
